import Mathlib

/-!
Shallow embedding of `src/main.js` (class `UFWController`) from the
`ufw-controller` repository.

The class shells out every operation to an external command executor
(`child_process.exec`).  We model that collaborator as an oracle
`Executor : String → ExecOutcome` mapping a full command line to either the
process's standard output (`success stdout`) or a failure carrying standard
error (`failure stderr`).  `runCommand` embeds the method of the same name:
on failure it propagates the string `Error: <stderr>`, on success it returns
the standard output with surrounding whitespace trimmed (`stdout.trim()`).

Each operation that can issue several commands is embedded as a function
returning a pair: the first component is the operation's outcome
(`Except String _`, where `Except.error` models a rejected promise) and the
second component is the ordered list of command lines handed to `runCommand`
during the call, including a command whose execution failed.  This trace
makes "which executor commands were invoked" a provable statement.

JavaScript string primitives used by the source (`trim`, `split('\n')`,
`includes`, template literals, truthiness of a string) are embedded by
executable Lean definitions with the same semantics: `jsTrim`, `jsSplitNl`,
`includes` (substring containment), string append, and comparison with `""`.
-/

namespace UFW

/-- Outcome of one OS-level command execution, as seen by the `exec`
callback: standard output on success, standard error text on failure. -/
inductive ExecOutcome where
  | success (stdout : String)
  | failure (stderr : String)
  deriving DecidableEq

/-- The external command executor: a fixed assignment of an outcome to every
command line.  It models the environment in which one call runs. -/
abbrev Executor := String → ExecOutcome

/-- JavaScript `String.prototype.trim` on the character list: drop
whitespace from both ends. -/
def trimChars (l : List Char) : List Char :=
  ((l.dropWhile Char.isWhitespace).reverse.dropWhile Char.isWhitespace).reverse

/-- JavaScript `String.prototype.trim`: remove surrounding whitespace. -/
def jsTrim (s : String) : String :=
  String.mk (trimChars s.data)

/-- JavaScript `String.prototype.split('\n')` on the character list. -/
def splitNlChars : List Char → List (List Char)
  | [] => [[]]
  | c :: rest =>
    if c = '\n' then [] :: splitNlChars rest
    else
      match splitNlChars rest with
      | [] => [[c]]
      | h :: t => (c :: h) :: t

/-- JavaScript `String.prototype.split('\n')`: split on every newline. -/
def jsSplitNl (s : String) : List String :=
  (splitNlChars s.data).map String.mk

/-- JavaScript `String.prototype.includes`: substring containment. -/
def includes (s sub : String) : Bool :=
  decide (sub.data <:+: s.data)

/-- Result object returned by the mutating operations of `UFWController`
(`{ status, rule, action, message }`); `rule` is absent for the lifecycle
operations, which we model with `none`. -/
structure OperationResult where
  status : String
  rule : Option String
  action : String
  message : String
  deriving DecidableEq

/-- A single-quote character as a string (used by the skip message template
`Rule '<rule>' already exists.`). -/
def squote : String := String.singleton (Char.ofNat 39)

/-- The skip message template of the source:  the template literal
`Rule '<rule>' already exists.` -/
def existsMsg (rule : String) : String :=
  "Rule " ++ squote ++ rule ++ squote ++ " already exists."

/-- `runCommand(command)`: run the command through the executor; reject with
`Error: <stderr>` on failure, resolve `stdout.trim()` on success. -/
def runCommand (ex : Executor) (command : String) : Except String String :=
  match ex command with
  | ExecOutcome.failure stderr => Except.error ("Error: " ++ stderr)
  | ExecOutcome.success stdout => Except.ok (jsTrim stdout)

/-- `status()`: `runCommand('sudo ufw status')`. -/
def status (ex : Executor) : Except String String :=
  runCommand ex "sudo ufw status"

/-- `ruleExists(rule)`: query `status()` and test `status.includes(rule)`. -/
def ruleExists (ex : Executor) (rule : String) : Except String Bool :=
  match status ex with
  | Except.error e => Except.error e
  | Except.ok st => Except.ok (includes st rule)

/-- The rule template of `allow`/`deny`/`reject`:
`${portOrService}${protocol ? '/' + protocol : ''}` (a string is truthy iff
nonempty; `portOrService` is used through string interpolation). -/
def renderPortRule (portOrService protocol : String) : String :=
  portOrService ++ (if protocol = "" then "" else "/" ++ protocol)

/-- The rule template of `allowFromIp`/`denyFromIp`:
`from ${ip}${port ? ' to any port ' + port : ''}${protocol ? ' proto ' + protocol : ''}`. -/
def renderIpRule (ip port protocol : String) : String :=
  "from " ++ ip ++ (if port = "" then "" else " to any port " ++ port) ++
    (if protocol = "" then "" else " proto " ++ protocol)

/-- `allow(portOrService, protocol = '')`.  The second component of the
result lists the command lines handed to `runCommand`, in order (the status
query issued by `ruleExists`, then the mutating command when reached). -/
def allow (ex : Executor) (portOrService protocol : String) :
    Except String OperationResult × List String :=
  let rule := renderPortRule portOrService protocol
  match ruleExists ex rule with
  | Except.error e => (Except.error e, ["sudo ufw status"])
  | Except.ok found =>
    if !found then
      let command := "sudo ufw allow " ++ rule
      match runCommand ex command with
      | Except.error e => (Except.error e, ["sudo ufw status", command])
      | Except.ok result =>
        (Except.ok ⟨"success", some rule, "allow", result⟩,
          ["sudo ufw status", command])
    else
      (Except.ok ⟨"skipped", some rule, "allow", existsMsg rule⟩,
        ["sudo ufw status"])

/-- `deny(portOrService, protocol = '')`, with the command trace. -/
def deny (ex : Executor) (portOrService protocol : String) :
    Except String OperationResult × List String :=
  let rule := renderPortRule portOrService protocol
  match ruleExists ex rule with
  | Except.error e => (Except.error e, ["sudo ufw status"])
  | Except.ok found =>
    if !found then
      let command := "sudo ufw deny " ++ rule
      match runCommand ex command with
      | Except.error e => (Except.error e, ["sudo ufw status", command])
      | Except.ok result =>
        (Except.ok ⟨"success", some rule, "deny", result⟩,
          ["sudo ufw status", command])
    else
      (Except.ok ⟨"skipped", some rule, "deny", existsMsg rule⟩,
        ["sudo ufw status"])

/-- `reject(portOrService, protocol = '')`, with the command trace. -/
def reject (ex : Executor) (portOrService protocol : String) :
    Except String OperationResult × List String :=
  let rule := renderPortRule portOrService protocol
  match ruleExists ex rule with
  | Except.error e => (Except.error e, ["sudo ufw status"])
  | Except.ok found =>
    if !found then
      let command := "sudo ufw reject " ++ rule
      match runCommand ex command with
      | Except.error e => (Except.error e, ["sudo ufw status", command])
      | Except.ok result =>
        (Except.ok ⟨"success", some rule, "reject", result⟩,
          ["sudo ufw status", command])
    else
      (Except.ok ⟨"skipped", some rule, "reject", existsMsg rule⟩,
        ["sudo ufw status"])

/-- `allowFromIp(ip, port = '', protocol = '')`, with the command trace. -/
def allowFromIp (ex : Executor) (ip port protocol : String) :
    Except String OperationResult × List String :=
  let rule := renderIpRule ip port protocol
  match ruleExists ex rule with
  | Except.error e => (Except.error e, ["sudo ufw status"])
  | Except.ok found =>
    if !found then
      let command := "sudo ufw allow " ++ rule
      match runCommand ex command with
      | Except.error e => (Except.error e, ["sudo ufw status", command])
      | Except.ok result =>
        (Except.ok ⟨"success", some rule, "allow", result⟩,
          ["sudo ufw status", command])
    else
      (Except.ok ⟨"skipped", some rule, "allow", existsMsg rule⟩,
        ["sudo ufw status"])

/-- `denyFromIp(ip, port = '', protocol = '')`, with the command trace. -/
def denyFromIp (ex : Executor) (ip port protocol : String) :
    Except String OperationResult × List String :=
  let rule := renderIpRule ip port protocol
  match ruleExists ex rule with
  | Except.error e => (Except.error e, ["sudo ufw status"])
  | Except.ok found =>
    if !found then
      let command := "sudo ufw deny " ++ rule
      match runCommand ex command with
      | Except.error e => (Except.error e, ["sudo ufw status", command])
      | Except.ok result =>
        (Except.ok ⟨"success", some rule, "deny", result⟩,
          ["sudo ufw status", command])
    else
      (Except.ok ⟨"skipped", some rule, "deny", existsMsg rule⟩,
        ["sudo ufw status"])

/-- `isEnabled()`: query `status()` and test `status.includes('active')`. -/
def isEnabled (ex : Executor) : Except String Bool :=
  match status ex with
  | Except.error e => Except.error e
  | Except.ok st => Except.ok (includes st "active")

/-- The priming command issued first by `restore`:
`sudo ufw reset && sudo ufw allow from any` (one executor invocation). -/
def primingCommand : String := "sudo ufw reset && sudo ufw allow from any"

/-- The per-line loop of `restore`: for each line whose trimmed form is
nonempty (string truthiness), run `sudo ufw <trimmed line>`; stop at the
first failure.  Returns the outcome and the commands issued by the loop. -/
def restoreLines (ex : Executor) : List String → Except String Unit × List String
  | [] => (Except.ok (), [])
  | r :: rest =>
    if jsTrim r = "" then restoreLines ex rest
    else
      match runCommand ex ("sudo ufw " ++ jsTrim r) with
      | Except.error e => (Except.error e, ["sudo ufw " ++ jsTrim r])
      | Except.ok _ =>
        match restoreLines ex rest with
        | (res, cmds) => (res, ("sudo ufw " ++ jsTrim r) :: cmds)

/-- `restore(filePath)`: issue the priming command, then read the backup
file (`fileContent` is the filesystem's answer at `filePath`:
`fs.readFileSync` either yields the content or throws), split the content
on newlines and run the per-line loop.  The second component is the ordered
command trace. -/
def restore (ex : Executor) (filePath : String) (fileContent : Except String String) :
    Except String OperationResult × List String :=
  match runCommand ex primingCommand with
  | Except.error e => (Except.error e, [primingCommand])
  | Except.ok _ =>
    match fileContent with
    | Except.error e => (Except.error e, [primingCommand])
    | Except.ok content =>
      match restoreLines ex (jsSplitNl content) with
      | (Except.error e, cmds) => (Except.error e, primingCommand :: cmds)
      | (Except.ok _, cmds) =>
        (Except.ok ⟨"success", none, "restore", "Restored from " ++ filePath ++ "."⟩,
          primingCommand :: cmds)

/-- An executor that succeeds on every command with empty output. -/
def exAllOk : Executor := fun _ => ExecOutcome.success ""

/-- An executor whose status report is `Status: active`. -/
def exActive : Executor := fun _ => ExecOutcome.success "Status: active"

/-- An executor whose status report is `Status: off` (no `active` token). -/
def exOff : Executor := fun _ => ExecOutcome.success "Status: off"

/-- An executor whose status report is `Status: inactive`. -/
def exInactive : Executor := fun _ => ExecOutcome.success "Status: inactive"

/-- An executor whose every output carries a trailing newline. -/
def exNewline : Executor := fun _ => ExecOutcome.success "active\n"

/-- An executor failing exactly on the command `sudo ufw allow 2`, with
standard error `boom`. -/
def exFailSecond : Executor := fun c =>
  if c = "sudo ufw allow 2" then ExecOutcome.failure "boom"
  else ExecOutcome.success ""

/-- A status report listing the rules `80/tcp` and `from 10.0.0.5`. -/
def presentReport : String :=
  "80/tcp ALLOW Anywhere\nfrom 10.0.0.5 ALLOW Anywhere"

/-- An executor whose status report is `presentReport`. -/
def exPresent : Executor := fun _ => ExecOutcome.success presentReport

/-- An executor whose status report is `Status: active` (so it lists no
rule) and which answers every other command with `rule added`. -/
def exAbsent : Executor := fun c =>
  if c = "sudo ufw status" then ExecOutcome.success "Status: active"
  else ExecOutcome.success "rule added"

/-- The spec-side plan of `restore`: one subcommand per line whose trimmed
form is nonempty, in file order, built from the trimmed line. -/
def restorePlan : List String → List String
  | [] => []
  | r :: rest =>
    if jsTrim r = "" then restorePlan rest
    else ("sudo ufw " ++ jsTrim r) :: restorePlan rest

deriving instance DecidableEq for Except

/-! ## Helper lemmas -/

/-- Rendering with an empty protocol is the bare target. -/
theorem renderPortRule_empty (t : String) : renderPortRule t "" = t := by
  apply String.ext
  unfold renderPortRule
  rw [if_pos rfl, String.data_append, List.append_nil]

/-- Rendering with a nonempty protocol, at the level of character data. -/
theorem renderPortRule_data_of_ne (t p : String) (hp : ¬ p = "") :
    (renderPortRule t p).data = t.data ++ '/' :: p.data := by
  unfold renderPortRule
  rw [if_neg hp, String.data_append, String.data_append]
  rfl

/-- Splitting a list at a distinguished separator element absent from both
prefixes is unambiguous. -/
theorem append_cons_slash_inj {l1 r1 l2 r2 : List Char}
    (h1 : '/' ∉ l1) (h2 : '/' ∉ l2)
    (h : l1 ++ '/' :: r1 = l2 ++ '/' :: r2) : l1 = l2 ∧ r1 = r2 := by
  induction l1 generalizing l2 with
  | nil =>
    cases l2 with
    | nil => simpa using h
    | cons d l2' =>
      rw [List.nil_append, List.cons_append] at h
      obtain ⟨hd, -⟩ := List.cons.inj h
      refine absurd ?_ h2
      rw [← hd]
      exact List.mem_cons_self '/' l2'
  | cons c l1' ih =>
    cases l2 with
    | nil =>
      rw [List.nil_append, List.cons_append] at h
      obtain ⟨hc, -⟩ := List.cons.inj h
      refine absurd ?_ h1
      rw [hc]
      exact List.mem_cons_self '/' l1'
    | cons d l2' =>
      rw [List.cons_append, List.cons_append] at h
      obtain ⟨hcd, ht⟩ := List.cons.inj h
      have h1' : '/' ∉ l1' := fun hm => h1 (List.mem_cons_of_mem _ hm)
      have h2' : '/' ∉ l2' := fun hm => h2 (List.mem_cons_of_mem _ hm)
      obtain ⟨he, hr⟩ := ih h1' h2' ht
      exact ⟨by rw [hcd, he], hr⟩

/-! ## Claims -/

/-- C3: canonical rule rendering is a (deterministic) function satisfying:
target `80` with protocol `tcp` renders `80/tcp`; target `80` with no
protocol renders `80`; ip `10.0.0.5` with port `8080` and protocol `tcp`
renders `from 10.0.0.5 to any port 8080 proto tcp`; ip `10.0.0.5` alone
renders `from 10.0.0.5`. -/
theorem render_canonical_examples :
    renderPortRule "80" "tcp" = "80/tcp" ∧
    renderPortRule "80" "" = "80" ∧
    renderIpRule "10.0.0.5" "8080" "tcp" = "from 10.0.0.5 to any port 8080 proto tcp" ∧
    renderIpRule "10.0.0.5" "" "" = "from 10.0.0.5" :=
  ⟨by decide, by decide, by decide, by decide⟩

/-- C4 counterexample: the port/service rendering is not injective in
(target, protocol) over all inputs: the pairs (`80/tcp`, ``) and
(`80`, `tcp`) render the same string `80/tcp`. -/
theorem renderPortRule_not_injective :
    ¬ (∀ t1 p1 t2 p2 : String,
        renderPortRule t1 p1 = renderPortRule t2 p2 → t1 = t2 ∧ p1 = p2) := by
  intro hall
  have h := hall "80/tcp" "" "80" "tcp" (by decide)
  exact absurd h.1 (by decide)

/-- C4 amended: the port/service rendering is injective in
(target, protocol) for targets that contain no `/` character. -/
theorem renderPortRule_injective_of_no_slash (t1 p1 t2 p2 : String)
    (h1 : '/' ∉ t1.data) (h2 : '/' ∉ t2.data)
    (h : renderPortRule t1 p1 = renderPortRule t2 p2) : t1 = t2 ∧ p1 = p2 := by
  by_cases e1 : p1 = "" <;> by_cases e2 : p2 = ""
  · rw [e1, e2] at h
    rw [renderPortRule_empty, renderPortRule_empty] at h
    exact ⟨h, by rw [e1, e2]⟩
  · rw [e1, renderPortRule_empty] at h
    refine absurd ?_ h1
    rw [h, renderPortRule_data_of_ne t2 p2 e2]
    exact List.mem_append_right _ (List.mem_cons_self _ _)
  · rw [e2, renderPortRule_empty] at h
    refine absurd ?_ h2
    rw [← h, renderPortRule_data_of_ne t1 p1 e1]
    exact List.mem_append_right _ (List.mem_cons_self _ _)
  · have hd := congrArg String.data h
    rw [renderPortRule_data_of_ne t1 p1 e1, renderPortRule_data_of_ne t2 p2 e2] at hd
    obtain ⟨ha, hb⟩ := append_cons_slash_inj h1 h2 hd
    exact ⟨String.ext ha, String.ext hb⟩

/-- C4 witness: the amended injectivity applied at the slash-free targets
`80`/`tcp` on both sides. -/
theorem renderPortRule_injective_of_no_slash_witness :
    "80" = "80" ∧ "tcp" = "tcp" :=
  renderPortRule_injective_of_no_slash "80" "tcp" "80" "tcp"
    (by decide) (by decide) rfl

/-- C5: whenever the status query yields a report, `isEnabled` returns true
if `active` occurs as a substring of the report and false if it does not. -/
theorem isEnabled_iff_active_substring (ex : Executor) (report : String)
    (hst : status ex = Except.ok report) :
    ("active".data <:+: report.data → isEnabled ex = Except.ok true) ∧
    (¬ "active".data <:+: report.data → isEnabled ex = Except.ok false) := by
  constructor
  · intro h
    simp only [isEnabled, hst, includes]
    rw [decide_eq_true h]
  · intro h
    simp only [isEnabled, hst, includes]
    rw [decide_eq_false h]

/-- C5 witness: a report containing `active` answers true; a report
without it answers false. -/
theorem isEnabled_iff_active_substring_witness :
    isEnabled exActive = Except.ok true ∧ isEnabled exOff = Except.ok false :=
  ⟨(isEnabled_iff_active_substring exActive "Status: active" (by decide)).1 (by decide),
   (isEnabled_iff_active_substring exOff "Status: off" (by decide)).2 (by decide)⟩

/-- C10: a status report containing `inactive` makes `isEnabled` return
true, because `active` is a substring of `inactive`. -/
theorem isEnabled_true_on_inactive (ex : Executor) (report : String)
    (hst : status ex = Except.ok report)
    (h : "inactive".data <:+: report.data) :
    isEnabled ex = Except.ok true := by
  have hsub : "active".data <:+: report.data :=
    List.IsInfix.trans (by decide) h
  simp only [isEnabled, hst, includes]
  rw [decide_eq_true hsub]

/-- C10 witness: the report `Status: inactive` makes `isEnabled` answer
true. -/
theorem isEnabled_true_on_inactive_witness :
    isEnabled exInactive = Except.ok true :=
  isEnabled_true_on_inactive exInactive "Status: inactive" (by decide) (by decide)

/-- C9 counterexample: `status()` does not return the executor's output
verbatim for every possible output: when the executor's standard output is
`active` followed by a newline, `status()` returns `active` without it
(`runCommand` applies `stdout.trim()`). -/
theorem status_not_verbatim :
    status exNewline = Except.ok "active" ∧
    status exNewline ≠ Except.ok "active\n" :=
  ⟨by decide, by decide⟩

/-- C9 amended: `status()` returns the executor's standard output with
surrounding whitespace trimmed and no other change; likewise, on success a
mutating operation's result message equals the executor's standard output
trimmed. -/
theorem executor_output_trimmed (ex : Executor) :
    (∀ out, ex "sudo ufw status" = ExecOutcome.success out →
      status ex = Except.ok (jsTrim out)) ∧
    (∀ t p report out, status ex = Except.ok report →
      includes report (renderPortRule t p) = false →
      ex ("sudo ufw allow " ++ renderPortRule t p) = ExecOutcome.success out →
      (allow ex t p).1 = Except.ok
        ⟨"success", some (renderPortRule t p), "allow", jsTrim out⟩) := by
  constructor
  · intro out h
    simp only [status, runCommand, h]
  · intro t p report out hst habs hcmd
    simp [allow, ruleExists, runCommand, hst, habs, hcmd]

/-- C9 witness: the amended statement applied to the executor whose every
output is `active` plus a trailing newline. -/
theorem executor_output_trimmed_witness :
    status exNewline = Except.ok "active" ∧
    (allow exNewline "80" "tcp").1 = Except.ok
      ⟨"success", some (renderPortRule "80" "tcp"), "allow", "active"⟩ :=
  ⟨(executor_output_trimmed exNewline).1 "active\n" rfl,
   (executor_output_trimmed exNewline).2 "80" "tcp" "active" "active\n"
     (by decide) (by decide) rfl⟩

/-- C1: for every status report and every rule request (allow, deny or
reject of a port/service, or allowFromIp/denyFromIp) whose canonically
rendered rule string occurs in that report, the call returns the skipped
result with message `Rule '<rule>' already exists.`, and the command trace
holds only the status query: no mutating executor command is invoked. -/
theorem skipped_when_rule_present (ex : Executor) (report : String)
    (hst : status ex = Except.ok report) :
    (∀ t p, includes report (renderPortRule t p) = true →
      allow ex t p = (Except.ok ⟨"skipped", some (renderPortRule t p), "allow",
          existsMsg (renderPortRule t p)⟩, ["sudo ufw status"]) ∧
      deny ex t p = (Except.ok ⟨"skipped", some (renderPortRule t p), "deny",
          existsMsg (renderPortRule t p)⟩, ["sudo ufw status"]) ∧
      reject ex t p = (Except.ok ⟨"skipped", some (renderPortRule t p), "reject",
          existsMsg (renderPortRule t p)⟩, ["sudo ufw status"])) ∧
    (∀ ip port proto, includes report (renderIpRule ip port proto) = true →
      allowFromIp ex ip port proto = (Except.ok ⟨"skipped",
          some (renderIpRule ip port proto), "allow",
          existsMsg (renderIpRule ip port proto)⟩, ["sudo ufw status"]) ∧
      denyFromIp ex ip port proto = (Except.ok ⟨"skipped",
          some (renderIpRule ip port proto), "deny",
          existsMsg (renderIpRule ip port proto)⟩, ["sudo ufw status"])) := by
  refine ⟨fun t p h => ⟨?_, ?_, ?_⟩, fun ip port proto h => ⟨?_, ?_⟩⟩ <;>
    simp [allow, deny, reject, allowFromIp, denyFromIp, ruleExists, hst, h]

/-- C1 witness: against the report listing `80/tcp` and `from 10.0.0.5`,
an `allow 80 tcp` and a `denyFromIp 10.0.0.5` are both skipped with only
the status query issued. -/
theorem skipped_when_rule_present_witness :
    allow exPresent "80" "tcp" = (Except.ok ⟨"skipped", some (renderPortRule "80" "tcp"),
        "allow", existsMsg (renderPortRule "80" "tcp")⟩, ["sudo ufw status"]) ∧
    denyFromIp exPresent "10.0.0.5" "" "" = (Except.ok ⟨"skipped",
        some (renderIpRule "10.0.0.5" "" ""), "deny",
        existsMsg (renderIpRule "10.0.0.5" "" "")⟩, ["sudo ufw status"]) :=
  ⟨((skipped_when_rule_present exPresent presentReport (by decide)).1
      "80" "tcp" (by decide)).1,
   ((skipped_when_rule_present exPresent presentReport (by decide)).2
      "10.0.0.5" "" "" (by decide)).2⟩

/-- C2: for every status report and every rule request whose canonically
rendered rule string does not occur in that report, the call's command
trace is the status query followed by exactly one mutating command whose
rule argument is the canonical rendering, and when that command succeeds
the call returns a result with status `success`. -/
theorem mutates_when_rule_absent (ex : Executor) (report : String)
    (hst : status ex = Except.ok report) :
    (∀ t p, includes report (renderPortRule t p) = false →
      ((allow ex t p).2 = ["sudo ufw status", "sudo ufw allow " ++ renderPortRule t p] ∧
        ∀ out, runCommand ex ("sudo ufw allow " ++ renderPortRule t p) = Except.ok out →
          (allow ex t p).1 = Except.ok
            ⟨"success", some (renderPortRule t p), "allow", out⟩) ∧
      ((deny ex t p).2 = ["sudo ufw status", "sudo ufw deny " ++ renderPortRule t p] ∧
        ∀ out, runCommand ex ("sudo ufw deny " ++ renderPortRule t p) = Except.ok out →
          (deny ex t p).1 = Except.ok
            ⟨"success", some (renderPortRule t p), "deny", out⟩) ∧
      ((reject ex t p).2 = ["sudo ufw status", "sudo ufw reject " ++ renderPortRule t p] ∧
        ∀ out, runCommand ex ("sudo ufw reject " ++ renderPortRule t p) = Except.ok out →
          (reject ex t p).1 = Except.ok
            ⟨"success", some (renderPortRule t p), "reject", out⟩)) ∧
    (∀ ip port proto, includes report (renderIpRule ip port proto) = false →
      ((allowFromIp ex ip port proto).2 =
          ["sudo ufw status", "sudo ufw allow " ++ renderIpRule ip port proto] ∧
        ∀ out, runCommand ex ("sudo ufw allow " ++ renderIpRule ip port proto) = Except.ok out →
          (allowFromIp ex ip port proto).1 = Except.ok
            ⟨"success", some (renderIpRule ip port proto), "allow", out⟩) ∧
      ((denyFromIp ex ip port proto).2 =
          ["sudo ufw status", "sudo ufw deny " ++ renderIpRule ip port proto] ∧
        ∀ out, runCommand ex ("sudo ufw deny " ++ renderIpRule ip port proto) = Except.ok out →
          (denyFromIp ex ip port proto).1 = Except.ok
            ⟨"success", some (renderIpRule ip port proto), "deny", out⟩)) := by
  refine ⟨fun t p h => ⟨⟨?_, ?_⟩, ⟨?_, ?_⟩, ⟨?_, ?_⟩⟩,
    fun ip port proto h => ⟨⟨?_, ?_⟩, ⟨?_, ?_⟩⟩⟩
  · cases hrc : runCommand ex ("sudo ufw allow " ++ renderPortRule t p) <;>
      simp [allow, ruleExists, hst, h, hrc]
  · intro out hout
    simp [allow, ruleExists, hst, h, hout]
  · cases hrc : runCommand ex ("sudo ufw deny " ++ renderPortRule t p) <;>
      simp [deny, ruleExists, hst, h, hrc]
  · intro out hout
    simp [deny, ruleExists, hst, h, hout]
  · cases hrc : runCommand ex ("sudo ufw reject " ++ renderPortRule t p) <;>
      simp [reject, ruleExists, hst, h, hrc]
  · intro out hout
    simp [reject, ruleExists, hst, h, hout]
  · cases hrc : runCommand ex ("sudo ufw allow " ++ renderIpRule ip port proto) <;>
      simp [allowFromIp, ruleExists, hst, h, hrc]
  · intro out hout
    simp [allowFromIp, ruleExists, hst, h, hout]
  · cases hrc : runCommand ex ("sudo ufw deny " ++ renderIpRule ip port proto) <;>
      simp [denyFromIp, ruleExists, hst, h, hrc]
  · intro out hout
    simp [denyFromIp, ruleExists, hst, h, hout]

/-- C2 witness: against the report `Status: active` (listing no rule), an
`allow 80 tcp` issues the status query and exactly one mutating command
`sudo ufw allow 80/tcp`, and returns the success result carrying the
executor's output. -/
theorem mutates_when_rule_absent_witness :
    (allow exAbsent "80" "tcp").2 =
      ["sudo ufw status", "sudo ufw allow " ++ renderPortRule "80" "tcp"] ∧
    (allow exAbsent "80" "tcp").1 = Except.ok
      ⟨"success", some (renderPortRule "80" "tcp"), "allow", "rule added"⟩ :=
  ⟨(((mutates_when_rule_absent exAbsent "Status: active" (by decide)).1
      "80" "tcp" (by decide)).1).1,
   (((mutates_when_rule_absent exAbsent "Status: active" (by decide)).1
      "80" "tcp" (by decide)).1).2 "rule added" (by decide)⟩

/-- When the executor succeeds on every command, the per-line loop of
`restore` succeeds and issues exactly the planned subcommands: one per
line whose trimmed form is nonempty, in order. -/
theorem restoreLines_eq_plan (ex : Executor)
    (hok : ∀ c, ∃ o, ex c = ExecOutcome.success o) :
    ∀ rules : List String, restoreLines ex rules = (Except.ok (), restorePlan rules) := by
  intro rules
  induction rules with
  | nil => rfl
  | cons r rest ih =>
    by_cases hr : jsTrim r = ""
    · simp [restoreLines, restorePlan, hr, ih]
    · obtain ⟨o, ho⟩ := hok ("sudo ufw " ++ jsTrim r)
      simp [restoreLines, restorePlan, hr, runCommand, ho, ih]

/-- C6: when the executor does not fail, `restore` issues, after the
priming command, exactly one subcommand per line whose trimmed form is
nonempty, in file order, built from the trimmed line (`restorePlan`); on
the file whose lines are `allow 80/tcp`, blank, `  deny 22  `,
`reject 443`, the plan is the three trimmed subcommands in order, and the
whole trace is the priming command followed by them. -/
theorem restore_one_command_per_nonblank_line :
    (∀ (ex : Executor) (fp content : String),
      (∀ c, ∃ o, ex c = ExecOutcome.success o) →
      (restore ex fp (Except.ok content)).2 =
        primingCommand :: restorePlan (jsSplitNl content)) ∧
    restorePlan (jsSplitNl "allow 80/tcp\n\n  deny 22  \nreject 443") =
      ["sudo ufw allow 80/tcp", "sudo ufw deny 22", "sudo ufw reject 443"] ∧
    (restore exAllOk "backup.rules"
        (Except.ok "allow 80/tcp\n\n  deny 22  \nreject 443")).2 =
      [primingCommand, "sudo ufw allow 80/tcp", "sudo ufw deny 22",
        "sudo ufw reject 443"] := by
  refine ⟨fun ex fp content hok => ?_, by decide, by decide⟩
  obtain ⟨o, ho⟩ := hok primingCommand
  simp [restore, runCommand, ho, restoreLines_eq_plan ex hok]

/-- C6 witness: the general trace shape applied to the all-succeeding
executor and the four-line backup file of the claim. -/
theorem restore_one_command_per_nonblank_line_witness :
    (restore exAllOk "backup.rules"
        (Except.ok "allow 80/tcp\n\n  deny 22  \nreject 443")).2 =
      primingCommand ::
        restorePlan (jsSplitNl "allow 80/tcp\n\n  deny 22  \nreject 443") :=
  restore_one_command_per_nonblank_line.1 exAllOk "backup.rules"
    "allow 80/tcp\n\n  deny 22  \nreject 443" (fun _ => ⟨"", rfl⟩)

/-- C7: on a backup file of three non-blank lines, if the executor
succeeds on the priming command and the first line's command but fails on
the second line's command, `restore` rejects with `Error: <stderr>` (the
executor's error text) and the trace stops at the second line's command:
no command is issued for the third line, and no result object is
returned. -/
theorem restore_aborts_on_second_line_failure (ex : Executor)
    (fp content a b c oa op e : String)
    (hsplit : jsSplitNl content = [a, b, c])
    (ha : ¬ jsTrim a = "") (hb : ¬ jsTrim b = "") (_hc : ¬ jsTrim c = "")
    (hprime : ex primingCommand = ExecOutcome.success op)
    (h1 : ex ("sudo ufw " ++ jsTrim a) = ExecOutcome.success oa)
    (h2 : ex ("sudo ufw " ++ jsTrim b) = ExecOutcome.failure e) :
    restore ex fp (Except.ok content) =
      (Except.error ("Error: " ++ e),
        [primingCommand, "sudo ufw " ++ jsTrim a, "sudo ufw " ++ jsTrim b]) := by
  simp [restore, runCommand, hprime, hsplit, restoreLines, ha, hb, h1, h2]

/-- C7 witness: the executor failing exactly on `sudo ufw allow 2`, run on
the three-line file `allow 1`, `allow 2`, `allow 3`. -/
theorem restore_aborts_on_second_line_failure_witness :
    restore exFailSecond "backup.rules" (Except.ok "allow 1\nallow 2\nallow 3") =
      (Except.error ("Error: " ++ "boom"),
        [primingCommand, "sudo ufw " ++ jsTrim "allow 1",
          "sudo ufw " ++ jsTrim "allow 2"]) :=
  restore_aborts_on_second_line_failure exFailSecond "backup.rules"
    "allow 1\nallow 2\nallow 3" "allow 1" "allow 2" "allow 3" "" "" "boom"
    (by decide) (by decide) (by decide) (by decide) (by decide) (by decide)
    (by decide)

/-- C8: `restore` issues the destructive priming command
(`sudo ufw reset && sudo ufw allow from any`) before consulting the backup
file: when the priming command succeeds and the file read fails, the read
failure propagates and the trace already holds the priming command. -/
theorem restore_primes_before_read (ex : Executor) (fp err op : String)
    (hprime : ex primingCommand = ExecOutcome.success op) :
    restore ex fp (Except.error err) = (Except.error err, [primingCommand]) := by
  simp [restore, runCommand, hprime]

/-- C8 witness: a failing read (`ENOENT`) after a successful priming
command propagates, with the priming command already issued. -/
theorem restore_primes_before_read_witness :
    restore exAllOk "missing.rules" (Except.error "ENOENT") =
      (Except.error "ENOENT", [primingCommand]) :=
  restore_primes_before_read exAllOk "missing.rules" "ENOENT" "" rfl

end UFW
